import Mathlib

/-!
Verification of the Deskhand session store, credential store and agent relay.

The definitions below are a shallow embedding of the TypeScript sources:

* packages/shared/src/sessions/types.ts  — data model (zod schemas)
* packages/shared/src/sessions (storage) — the .jsonl session store
  (createSession, listSessions, loadSession, appendMessage,
  updateSessionMetadata, deleteSession)
* packages/shared/src/credentials       — encrypted credential store
  (saveCredentials, loadCredentials)
* apps/electron/src/main/sessions.ts    — the agent relay
  (getOrCreateManagedSession, handleSendMessage, the SEND_MESSAGE
  request handler, cancelProcessing)

Modelling conventions:

* The file system is embedded at the granularity the code observes it:
  a session log is a list of parsed lines (a line is a session record, a
  message record, or a line whose raw JSON parse fails), and the sessions
  directory is an association list from session identifier to log.
  JSON serialization followed by parsing of a record is the identity at
  this granularity, so writing a record appends the corresponding line.
* Sources of nondeterminism of the environment (Date.now, the random part
  of generateId, the agent event stream, the cancellation signal) are
  explicit parameters.
* The node:crypto primitives used by the credential store (PBKDF2 and
  AES-256-GCM) are external library code; they are embedded as an
  idealized authenticated cipher: encryption is invertible by decryption
  under the same key and initialization vector, and authentication
  rejects every ciphertext or tag that differs from the genuine pair.
  Confidentiality is not modelled; only the functional contract is.
-/

set_option maxRecDepth 8000

namespace Deskhand

/-! ## Data model (packages/shared/src/sessions/types.ts) -/

/-- PermissionModeSchema: enum of safe, ask, allow-all. -/
inductive PermissionMode
  | safe
  | ask
  | allowAll
deriving DecidableEq, Repr

/-- ToolStatusSchema: enum of pending, executing, completed, error. -/
inductive ToolStatus
  | pending
  | executing
  | completed
  | error
deriving DecidableEq, Repr

/-- MessageRoleSchema: enum of user, assistant, tool, error, warning. -/
inductive MessageRole
  | user
  | assistant
  | tool
  | error
  | warning
deriving DecidableEq, Repr

/-- TokenUsageSchema. -/
structure TokenUsage where
  inputTokens : Nat
  outputTokens : Nat
  cacheReadTokens : Option Nat := none
  cacheCreationTokens : Option Nat := none
deriving DecidableEq, Repr

/-- MessageSchema. The unknown-typed toolInput field is embedded as an
opaque-to-the-claims string payload. -/
structure Message where
  id : String
  role : MessageRole
  content : String
  timestamp : Nat
  isIntermediate : Option Bool := none
  toolUseId : Option String := none
  toolName : Option String := none
  toolInput : Option String := none
  toolResult : Option String := none
  toolStatus : Option ToolStatus := none
  toolDuration : Option Nat := none
  toolIntent : Option String := none
deriving DecidableEq, Repr

/-- SessionSchema. -/
structure Session where
  id : String
  name : String
  createdAt : Nat
  updatedAt : Nat
  workingDirectory : Option String := none
  permissionMode : PermissionMode := .ask
  enabledSourceSlugs : List String := []
  tokenUsage : Option TokenUsage := none
deriving DecidableEq, Repr

/-- SessionWithMessages (loadSession result). -/
structure SessionWithMessages where
  session : Session
  messages : List Message
deriving DecidableEq, Repr

/-- SessionListItem (listSessions result entry). -/
structure SessionListItem where
  session : Session
  previewText : Option String
deriving DecidableEq, Repr

/-! ## Session store (the .jsonl storage module)

A log line is what one line of a session .jsonl file parses to: a line
carrying a type:"session" record, a line carrying a type:"message" record,
or a line whose JSON.parse (or schema validation) fails. -/

/-- One line of a session log file, as the store code classifies it. -/
inductive LogLine
  | sessionLine (s : Session)
  | messageLine (m : Message)
  | badLine
deriving DecidableEq, Repr

/-- The sessions directory: filename stem (session identifier) to parsed
log content. Only .jsonl files are represented, since readdir filtering
keeps exactly those. -/
abbrev SessionStore : Type := List (String × List LogLine)

/-- Association-list lookup (fs.existsSync + readFileSync of one file). -/
def alistLookup {α : Type} : List (String × α) → String → Option α
  | [], _ => none
  | (k, v) :: rest, key => if k = key then some v else alistLookup rest key

/-- Association-list overwrite-or-create (fs.writeFileSync). -/
def alistWrite {α : Type} : List (String × α) → String → α → List (String × α)
  | [], key, value => [(key, value)]
  | (k, v) :: rest, key, value =>
      if k = key then (k, value) :: rest else (k, v) :: alistWrite rest key value

/-- Association-list removal (fs.unlinkSync). -/
def alistDelete {α : Type} : List (String × α) → String → List (String × α)
  | [], _ => []
  | (k, v) :: rest, key => if k = key then rest else (k, v) :: alistDelete rest key

/-- createSession: builds the session record (name defaulting on a falsy
argument, permission mode ask, no enabled sources) and writes it as the
single line of a fresh log file. The generated identifier and Date.now
are parameters. -/
def createSession (store : SessionStore) (name : Option String) (id : String) (now : Nat) :
    Session × SessionStore :=
  let chosenName : String :=
    match name with
    | none => "New Chat"
    | some n => if n = "" then "New Chat" else n
  let session : Session :=
    { id := id, name := chosenName, createdAt := now, updatedAt := now,
      permissionMode := .ask, enabledSourceSlugs := [] }
  (session, alistWrite store id [.sessionLine session])

/-- Truthiness of the previewText accumulator in the listSessions loop:
undefined and the empty string are both falsy in the guarded condition. -/
def strFalsy : Option String → Bool
  | none => true
  | some s => s = ""

/-- The previewText update performed for one line inside the listSessions
loop: a type:"message" line with role "user" sets the preview to the
content truncated to 100 characters whenever the accumulator is falsy. -/
def updPreview (p : Option String) : LogLine → Option String
  | .messageLine m =>
      if strFalsy p ∧ m.role = .user then some (m.content.take 100) else p
  | _ => p

/-- The per-file loop of listSessions: walks the lines keeping the last
session record and the preview accumulator; a line that fails to parse
raises, aborting the whole file (result none). -/
def listScan : List LogLine → Option Session → Option String →
    Option (Option Session × Option String)
  | [], s, p => some (s, p)
  | .badLine :: _, _, _ => none
  | .sessionLine sess :: rest, _, p => listScan rest (some sess) p
  | .messageLine m :: rest, s, p => listScan rest s (updPreview p (.messageLine m))

/-- The per-file body of listSessions: a file contributes an entry exactly
when its scan succeeds and found a session record. -/
def parseListFile (lines : List LogLine) : Option SessionListItem :=
  match listScan lines none none with
  | none => none
  | some (none, _) => none
  | some (some s, p) => some ⟨s, p⟩

/-- The comparator of the final sort of listSessions: update timestamp
descending. -/
def sessionDescLe (a b : SessionListItem) : Bool :=
  b.session.updatedAt ≤ a.session.updatedAt

/-- listSessions: parse each file, skip the failing ones, sort by
updatedAt descending (the runtime sort is stable, as mergeSort is). -/
def listSessions (store : SessionStore) : List SessionListItem :=
  (store.filterMap (fun f => parseListFile f.2)).mergeSort sessionDescLe

/-- The line-classification loop of loadSession: collects the last session
record and all message records in order; any line that fails to parse
raises, making the whole load return null. -/
def loadScan : List LogLine → Option Session → List Message →
    Option (Option Session × List Message)
  | [], s, ms => some (s, ms)
  | .badLine :: _, _, _ => none
  | .sessionLine sess :: rest, _, ms => loadScan rest (some sess) ms
  | .messageLine m :: rest, s, ms => loadScan rest s (ms ++ [m])

/-- loadSession: null when the file does not exist, when any line fails to
parse, or when no session record is present. -/
def loadSession (store : SessionStore) (sid : String) : Option SessionWithMessages :=
  match alistLookup store sid with
  | none => none
  | some lines =>
      match loadScan lines none [] with
      | none => none
      | some (none, _) => none
      | some (some s, ms) => some ⟨s, ms⟩

/-- The partial update record of updateSessionMetadata. -/
structure MetaUpdates where
  name : Option String := none
  updatedAt : Option Nat := none
  workingDirectory : Option String := none
deriving DecidableEq, Repr

/-- Spread of the update record onto a session record. -/
def applyUpdates (s : Session) (u : MetaUpdates) : Session :=
  { s with
    name := u.name.getD s.name,
    updatedAt := u.updatedAt.getD s.updatedAt,
    workingDirectory :=
      match u.workingDirectory with
      | none => s.workingDirectory
      | some w => some w }

/-- updateSessionMetadata: none when the file does not exist or its first
line is not a valid session record (the internal failure is caught and no
write happens); otherwise rewrites the first line only. -/
def updateSessionMetadata (store : SessionStore) (sid : String) (u : MetaUpdates) :
    Option Session × SessionStore :=
  match alistLookup store sid with
  | none => (none, store)
  | some lines =>
      match lines with
      | .sessionLine s :: rest =>
          let s2 := applyUpdates s u
          (some s2, alistWrite store sid (.sessionLine s2 :: rest))
      | _ => (none, store)

/-- appendMessage: throws Not-Found when the log file does not exist
(before any write); otherwise appends one message line and then bumps the
update timestamp of the metadata record via updateSessionMetadata, whose
result is ignored. Date.now of the bump is the now parameter. -/
def appendMessage (store : SessionStore) (sid : String) (m : Message) (now : Nat) :
    Except String Unit × SessionStore :=
  match alistLookup store sid with
  | none => (.error ("Session " ++ sid ++ " not found"), store)
  | some lines =>
      let store1 := alistWrite store sid (lines ++ [.messageLine m])
      let store2 := (updateSessionMetadata store1 sid { updatedAt := some now }).2
      (.ok (), store2)

/-- deleteSession: removes the log file, reporting whether it existed. -/
def deleteSession (store : SessionStore) (sid : String) : Bool × SessionStore :=
  match alistLookup store sid with
  | none => (false, store)
  | some _ => (true, alistDelete store sid)

/-! ## Credential store (packages/shared/src/credentials)

The store encrypts the JSON-serialized credential object with
AES-256-GCM under a key derived by PBKDF2 from a machine identifier
(hostname + username + "-deskhand") and a per-save random salt, and
writes {version, salt, iv, authTag, data} to a single file. The crypto
primitives are external (node:crypto); they are embedded as an idealized
authenticated cipher, see the header comment. -/

/-- Credential kind: api_key or oauth_token. -/
inductive CredType
  | apiKey
  | oauthToken
deriving DecidableEq, Repr

/-- The anthropic entry of StoredCredentials. -/
structure AnthropicCredential where
  type : CredType
  value : String
  createdAt : Nat
deriving DecidableEq, Repr

/-- StoredCredentials: at most one anthropic credential. -/
structure StoredCredentials where
  anthropic : Option AnthropicCredential
deriving DecidableEq, Repr

/-- Byte-level serialization of the credential object (models
JSON.stringify followed by utf8 encoding; injective, with credDecode as
partial inverse). -/
def credEncode (c : StoredCredentials) : List Nat :=
  match c.anthropic with
  | none => [0]
  | some a =>
      [1, (match a.type with | .apiKey => 0 | .oauthToken => 1), a.createdAt]
        ++ a.value.toList.map Char.toNat

/-- Partial inverse of credEncode (models JSON.parse of the decrypted
plaintext; none on any malformed input). -/
def credDecode : List Nat → Option StoredCredentials
  | [0] => some ⟨none⟩
  | 1 :: t :: ts :: rest =>
      match t with
      | 0 => some ⟨some ⟨.apiKey, String.mk (rest.map Char.ofNat), ts⟩⟩
      | 1 => some ⟨some ⟨.oauthToken, String.mk (rest.map Char.ofNat), ts⟩⟩
      | _ => none
  | _ => none

/-- getMachineId: hostname + username + fixed suffix. -/
def machineId (hostname username : String) : String :=
  hostname ++ "-" ++ username ++ "-deskhand"

/-- The derived symmetric key: determined exactly by the password string
and the salt. Models the (deterministic, collision-free in the ideal
model) PBKDF2-SHA256 derivation of node:crypto. -/
abbrev CredKey : Type := String × Nat

/-- deriveKey: PBKDF2 of the machine identifier with the given salt. -/
def deriveKey (password : String) (salt : Nat) : CredKey := (password, salt)

/-- Keystream of the idealized cipher. -/
def gcmKeystream (key : CredKey) (iv i : Nat) : Nat := key.2 + iv + i

/-- Encryption half of the idealized AES-256-GCM: position-wise keystream
addition starting at position i. -/
def gcmEncryptAux (key : CredKey) (iv : Nat) : Nat → List Nat → List Nat
  | _, [] => []
  | i, b :: bs => (b + gcmKeystream key iv i) :: gcmEncryptAux key iv (i + 1) bs

/-- Decryption half of the idealized AES-256-GCM. -/
def gcmDecryptAux (key : CredKey) (iv : Nat) : Nat → List Nat → List Nat
  | _, [] => []
  | i, b :: bs => (b - gcmKeystream key iv i) :: gcmDecryptAux key iv (i + 1) bs

/-- cipher.update + cipher.final of the encryption direction. -/
def gcmEncrypt (key : CredKey) (iv : Nat) (pt : List Nat) : List Nat :=
  gcmEncryptAux key iv 0 pt

/-- decipher.update + decipher.final of the decryption direction. -/
def gcmDecrypt (key : CredKey) (iv : Nat) (ct : List Nat) : List Nat :=
  gcmDecryptAux key iv 0 ct

/-- The authentication tag of the idealized cipher: it authenticates
exactly the key, the initialization vector and the ciphertext, so the
verification below accepts only the genuine triple (the GCM integrity
contract). -/
structure AuthTag where
  key : CredKey
  iv : Nat
  ct : List Nat
deriving DecidableEq, Repr

/-- cipher.getAuthTag. -/
def gcmTag (key : CredKey) (iv : Nat) (ct : List Nat) : AuthTag := ⟨key, iv, ct⟩

/-- The on-disk envelope {version, salt, iv, authTag, data}; the hex
encoding of the buffer fields is injective and elided. -/
structure EncryptedData where
  version : Nat
  salt : Nat
  iv : Nat
  authTag : AuthTag
  data : List Nat
deriving DecidableEq, Repr

/-- The credentials.enc file: absent or one envelope. -/
abbrev CredFS : Type := Option EncryptedData

/-- saveCredentials: fresh salt and iv (parameters of the environment),
key derived from the machine identifier and the salt, authenticated
encryption of the serialized object, overwrite of the file. -/
def saveCredentials (hostname username : String) (salt iv : Nat)
    (c : StoredCredentials) (_fs : CredFS) : CredFS :=
  let key := deriveKey (machineId hostname username) salt
  let ct := gcmEncrypt key iv (credEncode c)
  some ⟨2, salt, iv, gcmTag key iv ct, ct⟩

/-- loadCredentials: null when the file is absent; otherwise re-derive the
key from the stored salt and the same machine identity, verify the tag,
decrypt and parse. Any verification or parse failure is caught and
yields null. -/
def loadCredentials (hostname username : String) (fs : CredFS) : Option StoredCredentials :=
  match fs with
  | none => none
  | some ed =>
      let key := deriveKey (machineId hostname username) ed.salt
      if ed.authTag = gcmTag key ed.iv ed.data then
        credDecode (gcmDecrypt key ed.iv ed.data)
      else
        none

/-! ## Agent relay (apps/electron/src/main/sessions.ts)

The relay keeps an in-memory managed-session record per session, invokes
the external agent to obtain an event stream, translates agent events to
session events pushed to the UI windows, and persists assistant messages.
The pushed events are modelled as one ordered log (the fan-out to all
windows preserves order). The agent stream of one run is a list of
yielded events plus an optional terminal error thrown when the iterator
is awaited past the last yielded event. The cancellation signal is a
schedule: abortAt n means the signal becomes aborted before the check
that precedes handling the event of index n. Identifier and clock draws
(generateId, Date.now) are supplies indexed by draw order. -/

/-- Role of an entry of the in-memory message mirror. -/
inductive ChatRole
  | user
  | assistant
deriving DecidableEq, Repr

/-- One entry of the in-memory message mirror. -/
structure ChatMessage where
  role : ChatRole
  content : String
deriving DecidableEq, Repr

/-- ManagedSession: the per-session in-memory record. The abort controller
is either absent or carries whether its signal has been aborted. -/
structure ManagedSession where
  id : String
  messages : List ChatMessage
  isProcessing : Bool
  abortController : Option Bool
  streamingText : String
deriving DecidableEq, Repr

/-- AgentEvent (packages/shared/src/agent): the events yielded by the
external agent stream. The record-typed toolInput is embedded as an
opaque-to-the-claims string payload. -/
inductive AgentEvent
  | turn_start (turnId : String)
  | turn_end (turnId : String)
  | text_delta (delta : String) (turnId : Option String) (parentToolUseId : Option String)
  | text_complete (text : String) (isIntermediate : Option Bool)
      (turnId : Option String) (parentToolUseId : Option String)
  | tool_start (toolName : String) (toolUseId : String) (toolInput : String)
      (toolIntent : Option String) (turnId : Option String) (parentToolUseId : Option String)
  | tool_result (toolUseId : String) (toolName : String) (result : String)
      (turnId : Option String) (parentToolUseId : Option String) (isError : Option Bool)
  | error (message : String)
  | complete (tokenUsage : Option TokenUsage)
  | info (message : String)
deriving DecidableEq, Repr

/-- SessionEvent (apps/electron/src/shared/types): the events pushed to
the UI windows, each stamped with the owning session identifier. -/
inductive SessionEvent
  | user_message (sessionId : String) (message : Message) (status : String)
  | turn_start (sessionId : String) (turnId : String)
  | turn_end (sessionId : String) (turnId : String)
  | text_delta (sessionId : String) (delta : String)
      (turnId : Option String) (parentToolUseId : Option String)
  | text_complete (sessionId : String) (text : String) (isIntermediate : Option Bool)
      (turnId : Option String) (parentToolUseId : Option String)
  | tool_start (sessionId : String) (toolName : String) (toolUseId : String)
      (toolInput : String) (toolIntent : Option String)
      (turnId : Option String) (parentToolUseId : Option String)
  | tool_result (sessionId : String) (toolUseId : String) (toolName : String)
      (result : String) (turnId : Option String) (parentToolUseId : Option String)
      (isError : Option Bool)
  | error (sessionId : String) (err : String)
  | complete (sessionId : String) (tokenUsage : Option TokenUsage)
  | info (sessionId : String) (message : String)
  | interrupted (sessionId : String)
deriving DecidableEq, Repr

/-- The state the relay module owns: the managed-session map, the session
store underneath, and the ordered log of events pushed to the UI. -/
structure RelayState where
  managed : List (String × ManagedSession)
  store : SessionStore
  events : List SessionEvent
deriving DecidableEq, Repr

/-- getOrCreateManagedSession: reuse the mapped record, or build one from
the persisted log (keeping only user and assistant messages) and insert
it. -/
def getOrCreateManagedSession (st : RelayState) (sid : String) :
    ManagedSession × RelayState :=
  match alistLookup st.managed sid with
  | some m => (m, st)
  | none =>
      let msgs : List ChatMessage :=
        match loadSession st.store sid with
        | none => []
        | some sw =>
            sw.messages.filterMap (fun m =>
              match m.role with
              | .user => some ⟨.user, m.content⟩
              | .assistant => some ⟨.assistant, m.content⟩
              | _ => none)
      let m : ManagedSession := ⟨sid, msgs, false, none, ""⟩
      (m, { st with managed := alistWrite st.managed sid m })

/-- The mutable state the streaming loop touches: the store, the fields
of the managed record it mutates, the pushed-event log, and the index of
the next identifier/clock draw. -/
structure RunState where
  store : SessionStore
  mirror : List ChatMessage
  streamingText : String
  events : List SessionEvent
  k : Nat
deriving DecidableEq, Repr

/-- sendSessionEvent: push one event to all windows (ordered log). -/
def emit (rs : RunState) (e : SessionEvent) : RunState :=
  { rs with events := rs.events ++ [e] }

/-- How the streaming loop ends: stream exhausted, interrupted by the
abort check, or an exception raised inside the loop body. -/
inductive LoopExit
  | exhausted
  | interrupted
  | failed (e : String)
deriving DecidableEq, Repr

/-- Whether the abort check preceding the event of index i observes the
signal as aborted. -/
def isAborted (abortAt : Option Nat) (i : Nat) : Bool :=
  match abortAt with
  | none => false
  | some n => n ≤ i

/-- The switch body of the loop of handleSendMessage: translate one agent
event to a session event; a text_delta extends the streaming buffer; a
non-intermediate text_complete persists a new assistant message (drawing
one identifier and one clock value) and appends it to the mirror before
forwarding — a persistence failure there raises out of the switch. -/
def handleAgentEvent (sid : String) (ids : Nat → String) (times : Nat → Nat)
    (rs : RunState) : AgentEvent → Except (RunState × String) RunState
  | .turn_start t => .ok (emit rs (.turn_start sid t))
  | .turn_end t => .ok (emit rs (.turn_end sid t))
  | .text_delta d t p =>
      .ok (emit { rs with streamingText := rs.streamingText ++ d } (.text_delta sid d t p))
  | .text_complete text inter t p =>
      if inter.getD false then
        .ok (emit rs (.text_complete sid text inter t p))
      else
        let assistantMsg : Message :=
          { id := ids rs.k, role := .assistant, content := text, timestamp := times rs.k }
        match appendMessage rs.store sid assistantMsg (times rs.k) with
        | (.error e, store2) => .error ({ rs with store := store2, k := rs.k + 1 }, e)
        | (.ok _, store2) =>
            .ok (emit
              { rs with store := store2,
                        mirror := rs.mirror ++ [⟨.assistant, text⟩],
                        k := rs.k + 1 }
              (.text_complete sid text inter t p))
  | .tool_start n u inp intent t p => .ok (emit rs (.tool_start sid n u inp intent t p))
  | .tool_result u n r t p ie => .ok (emit rs (.tool_result sid u n r t p ie))
  | .error m => .ok (emit rs (.error sid m))
  | .complete tu => .ok (emit rs (.complete sid tu))
  | .info m => .ok (emit rs (.info sid m))

/-- The for-await loop of handleSendMessage over the yielded events:
each received event is preceded by the cooperative abort check, which on
an aborted signal emits an interrupted event and breaks. -/
def consumeStream (sid : String) (ids : Nat → String) (times : Nat → Nat)
    (abortAt : Option Nat) : Nat → RunState → List AgentEvent → RunState × LoopExit
  | _, rs, [] => (rs, .exhausted)
  | i, rs, ev :: rest =>
      if isAborted abortAt i then (emit rs (.interrupted sid), .interrupted)
      else
        match handleAgentEvent sid ids times rs ev with
        | .ok rs2 => consumeStream sid ids times abortAt (i + 1) rs2 rest
        | .error (rs2, e) => (rs2, .failed e)

/-- Folds the terminal error of the stream iterator into the loop exit:
when the loop ran the stream to exhaustion and the iterator then raised,
the exception reaches the catch clause; an interrupted break never awaits
the iterator again, so a pending terminal error is not observed. -/
def finalExit (exit : LoopExit) (streamErr : Option String) : LoopExit :=
  match exit, streamErr with
  | .exhausted, some e => .failed e
  | x, _ => x

/-- Which control path of handleSendMessage ran to its end: the guard
rejection, an exception escaping before the try block (the initial
user-message persistence), or the try/finally block with the terminal
route of its loop. This component of the result is ghost instrumentation
of the embedding; it adds no behaviour. -/
inductive RunRoute
  | rejected
  | threw (e : String)
  | finished (exit : LoopExit)
deriving DecidableEq, Repr

/-- handleSendMessage: reject when already processing; otherwise set the
processing flag, fresh abort controller and empty buffer, persist the
user message (a Not-Found failure there escapes the handler before the
try block, so no teardown runs), mirror it, emit the user_message event,
consume the stream, on a caught failure emit an error event then a
completion event, and in the finally clause clear the flag, the
controller and the buffer. -/
def handleSendMessage (st : RelayState) (sid userMessage : String)
    (stream : List AgentEvent) (streamErr : Option String) (abortAt : Option Nat)
    (ids : Nat → String) (times : Nat → Nat) : RelayState × RunRoute :=
  let (managed, st0) := getOrCreateManagedSession st sid
  if managed.isProcessing then
    ({ st0 with events := st0.events ++ [.error sid "Already processing a message"] },
     .rejected)
  else
    let m1 : ManagedSession :=
      { managed with isProcessing := true, streamingText := "", abortController := some false }
    let st1 : RelayState := { st0 with managed := alistWrite st0.managed sid m1 }
    let userMsg : Message :=
      { id := ids 0, role := .user, content := userMessage, timestamp := times 0 }
    match appendMessage st1.store sid userMsg (times 0) with
    | (.error e, store2) => ({ st1 with store := store2 }, .threw e)
    | (.ok _, store2) =>
        let m2 : ManagedSession := { m1 with messages := m1.messages ++ [⟨.user, userMessage⟩] }
        let st2 : RelayState :=
          { st1 with store := store2,
                     managed := alistWrite st1.managed sid m2,
                     events := st1.events ++ [.user_message sid userMsg "processing"] }
        let rs0 : RunState := ⟨st2.store, m2.messages, "", st2.events, 1⟩
        let (rs1, exit) := consumeStream sid ids times abortAt 0 rs0 stream
        let exit2 := finalExit exit streamErr
        let rs2 : RunState :=
          match exit2 with
          | .failed e => emit (emit rs1 (.error sid e)) (.complete sid none)
          | _ => rs1
        let mFinal : ManagedSession :=
          { m2 with messages := rs2.mirror, isProcessing := false,
                    abortController := none, streamingText := "" }
        ({ managed := alistWrite st2.managed sid mFinal,
           store := rs2.store, events := rs2.events }, .finished exit2)

/-- Response of the SEND_MESSAGE request handler: IpcResponse of
{started : boolean}. -/
structure IpcStartResponse where
  success : Bool
  started : Option Bool := none
  error : Option String := none
deriving DecidableEq, Repr

/-- The SEND_MESSAGE request handler: start handleSendMessage in the
background, attach a catch that reports an escaped exception as a pushed
error event, and reply immediately with success and started true (the
background launch itself cannot raise synchronously). -/
def sendMessageRequest (st : RelayState) (sid message : String)
    (stream : List AgentEvent) (streamErr : Option String) (abortAt : Option Nat)
    (ids : Nat → String) (times : Nat → Nat) : IpcStartResponse × RelayState :=
  let (st1, route) := handleSendMessage st sid message stream streamErr abortAt ids times
  let st2 : RelayState :=
    match route with
    | .threw e => { st1 with events := st1.events ++ [.error sid e] }
    | _ => st1
  ({ success := true, started := some true, error := none }, st2)

/-- The CANCEL_PROCESSING request handler: signal the abort controller of
the managed session when one is present. -/
def cancelProcessing (st : RelayState) (sid : String) : RelayState :=
  match alistLookup st.managed sid with
  | none => st
  | some m =>
      match m.abortController with
      | none => st
      | some _ =>
          { st with managed := alistWrite st.managed sid { m with abortController := some true } }

/-! ## Helper lemmas about the association-list file system -/

theorem alistLookup_write_self {α : Type} (l : List (String × α)) (k : String) (v : α) :
    alistLookup (alistWrite l k v) k = some v := by
  induction l with
  | nil => simp [alistWrite, alistLookup]
  | cons hd tl ih =>
      obtain ⟨k2, v2⟩ := hd
      by_cases h : k2 = k
      · simp [alistWrite, alistLookup, h]
      · simp [alistWrite, alistLookup, h, ih]

theorem alistWrite_write_self {α : Type} (l : List (String × α)) (k : String) (v v2 : α) :
    alistWrite (alistWrite l k v) k v2 = alistWrite l k v2 := by
  induction l with
  | nil => simp [alistWrite]
  | cons hd tl ih =>
      obtain ⟨k3, v3⟩ := hd
      by_cases h : k3 = k
      · simp [alistWrite, h]
      · simp [alistWrite, h, ih]

/-! ## Claim C6: appendMessage on a missing session log -/

/-- C6: for every session identifier whose log file does not exist,
appendMessage fails with the Not-Found error and leaves the store
unchanged (no file is created). -/
theorem appendMessage_missing_notFound (store : SessionStore) (sid : String)
    (m : Message) (now : Nat) (h : alistLookup store sid = none) :
    appendMessage store sid m now = (.error ("Session " ++ sid ++ " not found"), store) := by
  simp [appendMessage, h]

/-- Concrete message used by witnesses. -/
def msgA : Message := { id := "m1", role := .user, content := "hello", timestamp := 1 }

/-- Witness for C6: the empty sessions directory has no log for s1, and
appendMessage on it fails with the Not-Found error and changes nothing. -/
theorem appendMessage_missing_notFound_witness :
    alistLookup ([] : SessionStore) "s1" = none ∧
    appendMessage ([] : SessionStore) "s1" msgA 0 =
      (.error ("Session " ++ "s1" ++ " not found"), ([] : SessionStore)) :=
  ⟨rfl, appendMessage_missing_notFound [] "s1" msgA 0 rfl⟩

/-! ## Claim C5: appended messages round-trip through loadSession -/

/-- A sequence of appendMessage calls, each with its own Date.now draw. -/
def appendRun (store : SessionStore) (sid : String) : List (Message × Nat) → SessionStore
  | [] => store
  | (m, t) :: rest => appendRun ((appendMessage store sid m t).2) sid rest

theorem appendRun_log (sid : String) (l : List (Message × Nat)) :
    ∀ (store : SessionStore) (s : Session) (ms : List Message),
      alistLookup store sid = some (.sessionLine s :: ms.map LogLine.messageLine) →
      ∃ s2, alistLookup (appendRun store sid l) sid =
        some (.sessionLine s2 :: (ms ++ l.map Prod.fst).map LogLine.messageLine) := by
  induction l with
  | nil =>
      intro store s ms h
      exact ⟨s, by simpa [appendRun] using h⟩
  | cons p rest ih =>
      intro store s ms h
      obtain ⟨m, t⟩ := p
      have hstep : (appendMessage store sid m t).2 =
          alistWrite store sid
            (.sessionLine (applyUpdates s { updatedAt := some t }) ::
              (ms.map LogLine.messageLine ++ [.messageLine m])) := by
        simp only [appendMessage, h]
        simp [updateSessionMetadata, alistLookup_write_self, alistWrite_write_self]
      have hlook : alistLookup ((appendMessage store sid m t).2) sid =
          some (.sessionLine (applyUpdates s { updatedAt := some t }) ::
            (ms ++ [m]).map LogLine.messageLine) := by
        rw [hstep, alistLookup_write_self]
        simp
      obtain ⟨s2, h2⟩ := ih ((appendMessage store sid m t).2)
        (applyUpdates s { updatedAt := some t }) (ms ++ [m]) hlook
      refine ⟨s2, ?_⟩
      simpa [appendRun, List.append_assoc] using h2

theorem loadScan_messageLines (ms : List Message) :
    ∀ (so : Option Session) (acc : List Message),
      loadScan (ms.map LogLine.messageLine) so acc = some (so, acc ++ ms) := by
  induction ms with
  | nil => intro so acc; simp [loadScan]
  | cons m rest ih =>
      intro so acc
      simp [loadScan, ih]

/-- C5: starting from a freshly created session, folding any sequence of
messages through appendMessage makes loadSession return exactly that
sequence, in append order (so in particular with the same length). -/
theorem loadSession_appendRun_roundtrip (store0 : SessionStore) (name : Option String)
    (sid : String) (now : Nat) (l : List (Message × Nat)) :
    (loadSession (appendRun (createSession store0 name sid now).2 sid l) sid).map
      SessionWithMessages.messages = some (l.map Prod.fst) := by
  have hcreate : alistLookup (createSession store0 name sid now).2 sid =
      some (.sessionLine (createSession store0 name sid now).1 ::
        ([] : List Message).map LogLine.messageLine) := by
    simp [createSession, alistLookup_write_self]
  obtain ⟨s2, h2⟩ := appendRun_log sid l (createSession store0 name sid now).2
    (createSession store0 name sid now).1 [] hcreate
  simp only [List.nil_append] at h2
  have h3 := loadScan_messageLines (l.map Prod.fst) (some s2) []
  simp only [List.map_map, List.nil_append] at h3
  simp [loadSession, h2, loadScan, h3]

/-! ## Claim C7: listSessions -/

theorem string_take100_empty : ("" : String).take 100 = "" := by
  apply String.ext
  simp [String.data_take]

theorem string_take100_ne_empty (s : String) (h : s ≠ "") : s.take 100 ≠ "" := by
  intro hc
  apply h
  have h1 : (s.take 100).data = s.data.take 100 := String.data_take s 100
  rw [hc] at h1
  rcases List.take_eq_nil_iff.mp h1.symm with h3 | h3
  · simp at h3
  · exact String.ext (by simpa using h3)

/-- The preview the implementation actually computes for one log, derived
below from the scan loop: the first user message with non-empty content,
truncated to 100 characters; the empty string when user messages exist
but all have empty content; nothing when the log has no user message. -/
def firstUserPreview : List LogLine → Option String
  | [] => none
  | .messageLine m :: rest =>
      if m.role = .user then
        if m.content = "" then (firstUserPreview rest).orElse (fun _ => some "")
        else some (m.content.take 100)
      else firstUserPreview rest
  | _ :: rest => firstUserPreview rest

theorem foldl_updPreview_nonfalsy (lines : List LogLine) :
    ∀ p, strFalsy p = false → List.foldl updPreview p lines = p := by
  induction lines with
  | nil => intro p _; rfl
  | cons l rest ih =>
      intro p hp
      have hstep : updPreview p l = p := by
        cases l with
        | messageLine m => simp [updPreview, hp]
        | sessionLine s => rfl
        | badLine => rfl
      simp [List.foldl, hstep, ih p hp]

theorem foldl_updPreview_someEmpty (lines : List LogLine) :
    List.foldl updPreview (some "") lines = some ((firstUserPreview lines).getD "") := by
  induction lines with
  | nil => rfl
  | cons l rest ih =>
      cases l with
      | sessionLine s => simpa [List.foldl, updPreview, firstUserPreview] using ih
      | badLine => simpa [List.foldl, updPreview, firstUserPreview] using ih
      | messageLine m =>
          by_cases hrole : m.role = .user
          · by_cases hc : m.content = ""
            · have hupd : updPreview (some "") (.messageLine m) = some "" := by
                simp [updPreview, strFalsy, hrole, hc, string_take100_empty]
              rw [List.foldl, hupd, ih]
              cases hfu : firstUserPreview rest <;>
                simp [firstUserPreview, hrole, hc, hfu, Option.orElse]
            · have hupd : updPreview (some "") (.messageLine m) =
                  some (m.content.take 100) := by
                simp [updPreview, strFalsy, hrole]
              rw [List.foldl, hupd,
                foldl_updPreview_nonfalsy rest _
                  (by simp [strFalsy, string_take100_ne_empty m.content hc])]
              simp [firstUserPreview, hrole, hc]
          · have hupd : updPreview (some "") (.messageLine m) = some "" := by
              simp [updPreview, hrole]
            rw [List.foldl, hupd, ih]
            simp [firstUserPreview, hrole]

theorem foldl_updPreview_none (lines : List LogLine) :
    List.foldl updPreview none lines = firstUserPreview lines := by
  induction lines with
  | nil => rfl
  | cons l rest ih =>
      cases l with
      | sessionLine s => simpa [List.foldl, updPreview, firstUserPreview] using ih
      | badLine => simpa [List.foldl, updPreview, firstUserPreview] using ih
      | messageLine m =>
          by_cases hrole : m.role = .user
          · by_cases hc : m.content = ""
            · have hupd : updPreview none (.messageLine m) = some "" := by
                simp [updPreview, strFalsy, hrole, hc, string_take100_empty]
              rw [List.foldl, hupd, foldl_updPreview_someEmpty]
              cases hfu : firstUserPreview rest <;>
                simp [firstUserPreview, hrole, hc, hfu, Option.orElse]
            · have hupd : updPreview none (.messageLine m) =
                  some (m.content.take 100) := by
                simp [updPreview, strFalsy, hrole]
              rw [List.foldl, hupd,
                foldl_updPreview_nonfalsy rest _
                  (by simp [strFalsy, string_take100_ne_empty m.content hc])]
              simp [firstUserPreview, hrole, hc]
          · have hupd : updPreview none (.messageLine m) = none := by
              simp [updPreview, hrole]
            rw [List.foldl, hupd, ih]
            simp [firstUserPreview, hrole]

/-- The session record the scan keeps: the last type:"session" line. -/
def lastSessionFrom : List LogLine → Option Session → Option Session
  | [], s => s
  | .sessionLine x :: rest, _ => lastSessionFrom rest (some x)
  | .messageLine _ :: rest, s => lastSessionFrom rest s
  | .badLine :: rest, s => lastSessionFrom rest s

theorem listScan_no_bad (lines : List LogLine) :
    ∀ s0 p0, LogLine.badLine ∉ lines →
      listScan lines s0 p0 = some (lastSessionFrom lines s0, List.foldl updPreview p0 lines) := by
  induction lines with
  | nil => intro s0 p0 _; rfl
  | cons l rest ih =>
      intro s0 p0 h
      cases l with
      | badLine => exact absurd (List.mem_cons_self _ _) h
      | sessionLine s =>
          have h2 : LogLine.badLine ∉ rest := fun hc => h (List.mem_cons_of_mem _ hc)
          simp [listScan, lastSessionFrom, List.foldl, updPreview, ih _ _ h2]
      | messageLine m =>
          have h2 : LogLine.badLine ∉ rest := fun hc => h (List.mem_cons_of_mem _ hc)
          simp [listScan, lastSessionFrom, List.foldl, ih _ _ h2]

theorem listScan_bad (lines : List LogLine) :
    ∀ s0 p0, LogLine.badLine ∈ lines → listScan lines s0 p0 = none := by
  induction lines with
  | nil => intro _ _ h; simp at h
  | cons l rest ih =>
      intro s0 p0 h
      cases l with
      | badLine => rfl
      | sessionLine s =>
          have h2 : LogLine.badLine ∈ rest := by simpa using h
          simp [listScan, ih _ _ h2]
      | messageLine m =>
          have h2 : LogLine.badLine ∈ rest := by simpa using h
          simp [listScan, ih _ _ h2]

theorem lastSessionFrom_some_iff (lines : List LogLine) :
    ∀ s0, (∃ s, lastSessionFrom lines s0 = some s) ↔
      ((∃ s, LogLine.sessionLine s ∈ lines) ∨ ∃ s, s0 = some s) := by
  induction lines with
  | nil => intro s0; simp [lastSessionFrom]
  | cons l rest ih =>
      intro s0
      cases l with
      | sessionLine x => simp [lastSessionFrom, ih]
      | messageLine m => simp [lastSessionFrom, ih]
      | badLine => simp [lastSessionFrom, ih]

theorem parseListFile_isSome_iff (lines : List LogLine) :
    (parseListFile lines).isSome = true ↔
      (LogLine.badLine ∉ lines ∧ ∃ s, LogLine.sessionLine s ∈ lines) := by
  by_cases hbad : LogLine.badLine ∈ lines
  · simp [parseListFile, listScan_bad lines none none hbad, hbad]
  · rw [parseListFile, listScan_no_bad lines none none hbad]
    cases hls : lastSessionFrom lines none with
    | none =>
        have h1 : ¬ ∃ s, LogLine.sessionLine s ∈ lines := by
          intro h2
          obtain ⟨s, hs⟩ := (lastSessionFrom_some_iff lines none).mpr (Or.inl h2)
          rw [hls] at hs
          exact Option.noConfusion hs
        simp [hbad, h1]
    | some s =>
        have h1 : ∃ s2, LogLine.sessionLine s2 ∈ lines := by
          rcases (lastSessionFrom_some_iff lines none).mp ⟨s, hls⟩ with h2 | h2
          · exact h2
          · obtain ⟨s2, hs2⟩ := h2; exact Option.noConfusion hs2
        simp [hbad, h1]

theorem parseListFile_preview (lines : List LogLine) (item : SessionListItem)
    (h : parseListFile lines = some item) : item.previewText = firstUserPreview lines := by
  by_cases hbad : LogLine.badLine ∈ lines
  · rw [parseListFile, listScan_bad lines none none hbad] at h
    exact Option.noConfusion h
  · rw [parseListFile, listScan_no_bad lines none none hbad] at h
    cases hls : lastSessionFrom lines none with
    | none => rw [hls] at h; exact Option.noConfusion h
    | some s =>
        rw [hls] at h
        simp only [Option.some.injEq] at h
        rw [← h]
        exact foldl_updPreview_none lines

/-- C7 (amended): listSessions returns a permutation of the per-file parse
results, sorted by update timestamp descending; a file yields an entry
exactly when no line fails to parse and a session record is present; and
the preview of an entry is the first user message with non-empty content
truncated to 100 characters (the empty string when user messages exist
but all are empty, nothing when there is no user message). -/
theorem listSessions_spec (store : SessionStore) :
    (listSessions store).Perm (store.filterMap (fun f => parseListFile f.2)) ∧
    (listSessions store).Pairwise
      (fun a b => b.session.updatedAt ≤ a.session.updatedAt) ∧
    (∀ lines : List LogLine, (parseListFile lines).isSome = true ↔
      (LogLine.badLine ∉ lines ∧ ∃ s, LogLine.sessionLine s ∈ lines)) ∧
    (∀ lines item, parseListFile lines = some item →
      item.previewText = firstUserPreview lines) := by
  refine ⟨List.mergeSort_perm _ _, ?_, parseListFile_isSome_iff, parseListFile_preview⟩
  have htrans : ∀ a b c : SessionListItem,
      sessionDescLe a b → sessionDescLe b c → sessionDescLe a c := by
    intro a b c hab hbc
    simp only [sessionDescLe, decide_eq_true_eq] at hab hbc ⊢
    omega
  have htotal : ∀ a b : SessionListItem, sessionDescLe a b || sessionDescLe b a := by
    intro a b
    simp only [sessionDescLe, Bool.or_eq_true, decide_eq_true_eq]
    omega
  have h := @List.sorted_mergeSort SessionListItem sessionDescLe htrans htotal
    (store.filterMap (fun f => parseListFile f.2))
  have h2 : (listSessions store).Pairwise (fun a b => sessionDescLe a b = true) := by
    simpa [listSessions] using h
  exact h2.imp (fun hab => by simpa [sessionDescLe] using hab)

/-- Concrete session record for the C7 inputs. -/
def c7sess : Session := { id := "a", name := "A", createdAt := 0, updatedAt := 5 }

/-- Concrete log whose first user message has empty content. -/
def c7lines : List LogLine :=
  [.sessionLine c7sess,
   .messageLine { id := "u1", role := .user, content := "", timestamp := 1 },
   .messageLine { id := "u2", role := .user, content := "hello", timestamp := 2 }]

/-- A sessions directory holding just that log. -/
def c7store : SessionStore := [("a", c7lines)]

/-- Modelled from the claim wording only, for comparison with the
implementation: the preview C7 asserts, namely the content of the first
user message of the log truncated to 100 characters. -/
def claimFirstUserPreview (lines : List LogLine) : Option String :=
  ((lines.filterMap fun l =>
      match l with
      | .messageLine m => if m.role = .user then some m.content else none
      | _ => none).head?).map (fun c => c.take 100)

/-- Counterexample to C7 as stated: on a log whose first user message has
empty content, the claimed preview is the empty string, but listSessions
returns the later non-empty user message as preview, because the empty
string is falsy in the guard of the scan loop. -/
theorem listSessions_preview_cex :
    claimFirstUserPreview c7lines = some "" ∧
    (listSessions c7store).map SessionListItem.previewText = [some "hello"] ∧
    (some "hello" : Option String) ≠ some "" := by
  refine ⟨by decide, ?_, by decide⟩
  have h1 : (c7store.filterMap (fun f => parseListFile f.2)) =
      [⟨c7sess, some "hello"⟩] := by decide
  rw [listSessions, h1, List.mergeSort_singleton]
  decide

/-- Witness for the amended C7 theorem at the concrete directory: the
output is sorted, the concrete log parses (it has no bad line and has a
session record), and its preview is the one of the first non-empty user
message. -/
theorem listSessions_spec_witness :
    ((listSessions c7store).Pairwise
      (fun a b => b.session.updatedAt ≤ a.session.updatedAt)) ∧
    ((parseListFile c7lines).isSome = true) ∧
    (SessionListItem.previewText ⟨c7sess, some ("hello".take 100)⟩ =
      firstUserPreview c7lines) :=
  ⟨(listSessions_spec c7store).2.1,
   ((listSessions_spec c7store).2.2.1 c7lines).mpr
     ⟨by decide, ⟨c7sess, by decide⟩⟩,
   (listSessions_spec c7store).2.2.2 c7lines ⟨c7sess, some ("hello".take 100)⟩ (by decide)⟩

/-! ## Claims C8 and C9: the credential store -/

theorem gcmDecryptAux_gcmEncryptAux (key : CredKey) (iv : Nat) (pt : List Nat) :
    ∀ i, gcmDecryptAux key iv i (gcmEncryptAux key iv i pt) = pt := by
  induction pt with
  | nil => intro i; rfl
  | cons b bs ih =>
      intro i
      simp [gcmEncryptAux, gcmDecryptAux, ih (i + 1)]

theorem gcmDecrypt_gcmEncrypt (key : CredKey) (iv : Nat) (pt : List Nat) :
    gcmDecrypt key iv (gcmEncrypt key iv pt) = pt :=
  gcmDecryptAux_gcmEncryptAux key iv pt 0

theorem credDecode_credEncode (c : StoredCredentials) :
    credDecode (credEncode c) = some c := by
  obtain ⟨a⟩ := c
  cases a with
  | none => rfl
  | some a =>
      obtain ⟨ty, v, ts⟩ := a
      obtain ⟨vdata⟩ := v
      have hcomp : (Char.ofNat ∘ Char.toNat) = id := funext Char.ofNat_toNat
      cases ty <;> simp [credEncode, credDecode, hcomp]

/-- C8: saving any structurally valid credentials object and loading it
back on the same machine identity (same hostname and username) yields the
saved value. -/
theorem loadCredentials_saveCredentials_roundtrip (hn un : String) (salt iv : Nat)
    (c : StoredCredentials) (fs : CredFS) :
    loadCredentials hn un (saveCredentials hn un salt iv c fs) = some c := by
  simp [loadCredentials, saveCredentials, gcmDecrypt_gcmEncrypt, credDecode_credEncode]

/-- C9: for a stored envelope in which the ciphertext or the
authentication tag has been altered (while the rest of the envelope is
the one written by saveCredentials), loadCredentials returns null — in
particular it raises nothing and never yields a plaintext other than the
saved credentials. -/
theorem loadCredentials_tamper_rejected (hn un : String) (salt iv : Nat)
    (c : StoredCredentials) (fs0 : CredFS) (ed : EncryptedData)
    (hsave : saveCredentials hn un salt iv c fs0 = some ed) :
    (∀ d2, d2 ≠ ed.data → loadCredentials hn un (some { ed with data := d2 }) = none) ∧
    (∀ t2, t2 ≠ ed.authTag → loadCredentials hn un (some { ed with authTag := t2 }) = none) := by
  rw [saveCredentials, Option.some.injEq] at hsave
  subst hsave
  constructor
  · intro d2 hne
    have hneq : gcmTag (deriveKey (machineId hn un) salt) iv
        (gcmEncrypt (deriveKey (machineId hn un) salt) iv (credEncode c)) ≠
        gcmTag (deriveKey (machineId hn un) salt) iv d2 := by
      intro he
      rw [gcmTag, gcmTag, AuthTag.mk.injEq] at he
      exact hne (he.2.2.symm)
    simp [loadCredentials, hneq]
  · intro t2 hne
    have hne2 : t2 ≠ gcmTag (deriveKey (machineId hn un) salt) iv
        (gcmEncrypt (deriveKey (machineId hn un) salt) iv (credEncode c)) := by
      simpa using hne
    simp [loadCredentials, hne2]

/-- Concrete credentials object used by the C9 witness. -/
def c9cred : StoredCredentials := ⟨some ⟨.apiKey, "k", 5⟩⟩

/-- The envelope saveCredentials writes for the concrete C9 inputs. -/
def c9ed : EncryptedData :=
  ⟨2, 3, 7,
   gcmTag (deriveKey (machineId "host" "me") 3) 7
     (gcmEncrypt (deriveKey (machineId "host" "me") 3) 7 (credEncode c9cred)),
   gcmEncrypt (deriveKey (machineId "host" "me") 3) 7 (credEncode c9cred)⟩

/-- Witness for C9: a concrete save, a concretely altered ciphertext and a
concretely altered tag, both rejected with null. -/
theorem loadCredentials_tamper_rejected_witness :
    saveCredentials "host" "me" 3 7 c9cred none = some c9ed ∧
    ([] : List Nat) ≠ c9ed.data ∧
    loadCredentials "host" "me" (some { c9ed with data := [] }) = none ∧
    loadCredentials "host" "me" (some { c9ed with authTag := ⟨("x", 0), 0, []⟩ }) = none :=
  ⟨rfl, by decide,
   (loadCredentials_tamper_rejected "host" "me" 3 7 c9cred none c9ed rfl).1 [] (by decide),
   (loadCredentials_tamper_rejected "host" "me" 3 7 c9cred none c9ed rfl).2
     ⟨("x", 0), 0, []⟩ (by decide)⟩

/-! ## Claim C3: the already-processing guard -/

/-- C3: a sendMessage call on a session whose processing flag is set
pushes exactly one error event with message "Already processing a
message" and returns with every other component of the relay state —
the managed map with the in-flight flag, mirror, cancellation handle
and streaming buffer, and the session store — unchanged; in particular
no user message is persisted. -/
theorem handleSendMessage_already_processing (st : RelayState) (sid msg : String)
    (stream : List AgentEvent) (streamErr : Option String) (abortAt : Option Nat)
    (ids : Nat → String) (times : Nat → Nat) (m : ManagedSession)
    (hm : alistLookup st.managed sid = some m) (hp : m.isProcessing = true) :
    handleSendMessage st sid msg stream streamErr abortAt ids times =
      ({ st with events := st.events ++ [.error sid "Already processing a message"] },
       .rejected) := by
  simp [handleSendMessage, getOrCreateManagedSession, hm, hp]

/-- Concrete in-flight managed session for the C3 witness. -/
def c3m : ManagedSession := ⟨"s1", [⟨.user, "q"⟩], true, some false, "buffered answer"⟩

/-- Concrete relay state with an in-flight session for the C3 witness. -/
def c3st : RelayState :=
  ⟨[("s1", c3m)], [("s1", [.sessionLine { id := "s1", name := "S", createdAt := 0, updatedAt := 0 }])], []⟩

/-- Witness for C3 at a concrete in-flight state. -/
theorem handleSendMessage_already_processing_witness :
    alistLookup c3st.managed "s1" = some c3m ∧
    c3m.isProcessing = true ∧
    handleSendMessage c3st "s1" "again" [] none none (fun _ => "i") (fun _ => 0) =
      ({ c3st with events := c3st.events ++ [.error "s1" "Already processing a message"] },
       .rejected) :=
  ⟨rfl, rfl,
   handleSendMessage_already_processing c3st "s1" "again" [] none none
     (fun _ => "i") (fun _ => 0) c3m rfl rfl⟩

/-! ## Claim C2: intermediate versus final text completions -/

/-- C2: in the event-translation switch of sendMessage, a text-completion
event with the intermediate flag set is forwarded to the UI but leaves
the session store and the in-memory mirror unchanged, while a
text-completion event without the intermediate flag (absent or false)
persists exactly one new assistant message — the log gains one
type:"message" line with role assistant and the completed text, plus the
update-timestamp bump of the metadata line — and appends it to the
mirror, before forwarding the event. -/
theorem handleAgentEvent_text_complete_spec (sid : String) (ids : Nat → String)
    (times : Nat → Nat) (rs : RunState) (text : String) (t p : Option String)
    (s : Session) (rest : List LogLine)
    (hf : alistLookup rs.store sid = some (.sessionLine s :: rest)) :
    (handleAgentEvent sid ids times rs (.text_complete text (some true) t p) =
      .ok { rs with events := rs.events ++ [.text_complete sid text (some true) t p] }) ∧
    (∀ inter : Option Bool, inter.getD false = false →
      handleAgentEvent sid ids times rs (.text_complete text inter t p) =
        .ok { store := alistWrite rs.store sid
                (.sessionLine (applyUpdates s { updatedAt := some (times rs.k) }) ::
                  (rest ++ [.messageLine { id := ids rs.k, role := .assistant,
                                           content := text, timestamp := times rs.k }])),
              mirror := rs.mirror ++ [⟨.assistant, text⟩],
              streamingText := rs.streamingText,
              events := rs.events ++ [.text_complete sid text inter t p],
              k := rs.k + 1 }) := by
  constructor
  · simp [handleAgentEvent, emit]
  · intro inter hi
    simp [handleAgentEvent, hi, appendMessage, hf, updateSessionMetadata,
      alistLookup_write_self, alistWrite_write_self, emit]

/-- Concrete run state for the C2 witness. -/
def c2rs : RunState :=
  ⟨[("s1", [.sessionLine { id := "s1", name := "S", createdAt := 0, updatedAt := 0 }])],
   [⟨.user, "q"⟩], "", [], 1⟩

/-- Witness for C2 at a concrete run state: an intermediate completion is
forwarded without touching store or mirror, and a completion without the
flag persists one assistant message and extends the mirror. -/
theorem handleAgentEvent_text_complete_spec_witness :
    alistLookup c2rs.store "s1" =
      some (.sessionLine { id := "s1", name := "S", createdAt := 0, updatedAt := 0 } :: []) ∧
    (handleAgentEvent "s1" (fun _ => "a") (fun _ => 9) c2rs
        (.text_complete "Hi" (some true) none none) =
      .ok { c2rs with events := c2rs.events ++ [.text_complete "s1" "Hi" (some true) none none] }) ∧
    ((none : Option Bool).getD false = false) ∧
    (handleAgentEvent "s1" (fun _ => "a") (fun _ => 9) c2rs
        (.text_complete "Hi" none none none) =
      .ok { store := alistWrite c2rs.store "s1"
              (.sessionLine (applyUpdates { id := "s1", name := "S", createdAt := 0, updatedAt := 0 }
                  { updatedAt := some 9 }) ::
                ([] ++ [.messageLine { id := "a", role := .assistant,
                                       content := "Hi", timestamp := 9 }])),
            mirror := c2rs.mirror ++ [⟨.assistant, "Hi"⟩],
            streamingText := c2rs.streamingText,
            events := c2rs.events ++ [.text_complete "s1" "Hi" none none none],
            k := c2rs.k + 1 }) :=
  ⟨rfl,
   (handleAgentEvent_text_complete_spec "s1" (fun _ => "a") (fun _ => 9) c2rs "Hi"
     none none { id := "s1", name := "S", createdAt := 0, updatedAt := 0 } [] rfl).1,
   rfl,
   (handleAgentEvent_text_complete_spec "s1" (fun _ => "a") (fun _ => 9) c2rs "Hi"
     none none { id := "s1", name := "S", createdAt := 0, updatedAt := 0 } [] rfl).2 none rfl⟩

/-! ## Claims C1 and C4: teardown and cancellation -/

/-- Characterization of a sendMessage run that passes the guard and whose
initial user-message persistence succeeds: the handler reduces to the
stream-consumption phase followed by the catch and finally clauses. -/
theorem handleSendMessage_processing_eq (st : RelayState) (sid msg : String)
    (stream : List AgentEvent) (streamErr : Option String) (abortAt : Option Nat)
    (ids : Nat → String) (times : Nat → Nat) (m : ManagedSession) (lines : List LogLine)
    (hm : alistLookup st.managed sid = some m) (hp : m.isProcessing = false)
    (hf : alistLookup st.store sid = some lines) :
    handleSendMessage st sid msg stream streamErr abortAt ids times =
      (let m1 : ManagedSession :=
        { m with isProcessing := true, streamingText := "", abortController := some false }
       let userMsg : Message := { id := ids 0, role := .user, content := msg, timestamp := times 0 }
       let store2 := (updateSessionMetadata (alistWrite st.store sid (lines ++ [.messageLine userMsg]))
         sid { updatedAt := some (times 0) }).2
       let m2 : ManagedSession := { m1 with messages := m1.messages ++ [⟨.user, msg⟩] }
       let st2 : RelayState :=
         { managed := alistWrite (alistWrite st.managed sid m1) sid m2,
           store := store2,
           events := st.events ++ [.user_message sid userMsg "processing"] }
       let rs0 : RunState := ⟨st2.store, m2.messages, "", st2.events, 1⟩
       let r := consumeStream sid ids times abortAt 0 rs0 stream
       let exit2 := finalExit r.2 streamErr
       let rs2 : RunState :=
         match exit2 with
         | .failed e => emit (emit r.1 (.error sid e)) (.complete sid none)
         | _ => r.1
       let mFinal : ManagedSession :=
         { m2 with messages := rs2.mirror, isProcessing := false,
                   abortController := none, streamingText := "" }
       ({ managed := alistWrite st2.managed sid mFinal,
          store := rs2.store, events := rs2.events }, .finished exit2)) := by
  have hgo : getOrCreateManagedSession st sid = (m, st) := by
    simp [getOrCreateManagedSession, hm]
  simp only [handleSendMessage, hgo, hp, Bool.false_eq_true, if_false, appendMessage, hf]

theorem emit_emit_tail (rs : RunState) (a b : SessionEvent) :
    ∃ pre, (emit (emit rs a) b).events = pre ++ [a, b] :=
  ⟨rs.events, by simp [emit]⟩

/-- C1 (amended): for a sendMessage invocation on an existing managed
session that is not already processing and whose initial user-message
persistence succeeds, the run ends through the try/finally block, so the
processing flag, the cancellation handle and the streaming buffer of the
managed session are cleared; and whenever it ends by a failure caught
inside that block (a failure raised by the stream, or by the persistence
of an assistant message), the pushed events end with an error event
followed by a completion event for that session. A failure of the
initial user-message persistence is not covered: it escapes the handler
before the try block, leaving the flag and handle set, and only an error
event is pushed by the request-level catch. -/
theorem handleSendMessage_teardown (st : RelayState) (sid msg : String)
    (stream : List AgentEvent) (streamErr : Option String) (abortAt : Option Nat)
    (ids : Nat → String) (times : Nat → Nat) (m : ManagedSession) (lines : List LogLine)
    (hm : alistLookup st.managed sid = some m) (hp : m.isProcessing = false)
    (hf : alistLookup st.store sid = some lines) :
    (∃ e2, (handleSendMessage st sid msg stream streamErr abortAt ids times).2 =
      .finished e2) ∧
    (∃ mws, alistLookup
        (handleSendMessage st sid msg stream streamErr abortAt ids times).1.managed sid =
          some mws ∧
      mws.isProcessing = false ∧ mws.abortController = none ∧ mws.streamingText = "") ∧
    (∀ e, (handleSendMessage st sid msg stream streamErr abortAt ids times).2 =
        .finished (.failed e) →
      ∃ pre, (handleSendMessage st sid msg stream streamErr abortAt ids times).1.events =
        pre ++ [.error sid e, .complete sid none]) := by
  rw [handleSendMessage_processing_eq st sid msg stream streamErr abortAt ids times m lines
    hm hp hf]
  refine ⟨⟨_, rfl⟩, ⟨_, alistLookup_write_self _ _ _, rfl, rfl, rfl⟩, ?_⟩
  intro e he
  simp only at he
  have he2 := RunRoute.finished.inj he
  simp only [he2]
  exact emit_emit_tail _ _ _

/-- Concrete idle managed session whose log file does not exist (C1). -/
def c1m : ManagedSession := ⟨"s1", [], false, none, ""⟩

/-- Concrete relay state for the C1 counterexample: the managed record
exists, but the session log is absent, so the initial user-message
persistence throws. -/
def c1st : RelayState := ⟨[("s1", c1m)], [], []⟩

/-- Counterexample to C1 as stated: when the initial user-message
persistence fails, the exception escapes before the try block, so the
processing flag stays set, the cancellation handle stays set, and the
pushed events contain an error event but no completion event — the
teardown the claim asserts for this ending does not happen. -/
theorem handleSendMessage_append_failure_cex :
    ((handleSendMessage c1st "s1" "hi" [] none none (fun _ => "i") (fun _ => 0)).2 =
      .threw ("Session " ++ "s1" ++ " not found")) ∧
    ((alistLookup (handleSendMessage c1st "s1" "hi" [] none none
        (fun _ => "i") (fun _ => 0)).1.managed "s1").map ManagedSession.isProcessing =
      some true) ∧
    ((alistLookup (handleSendMessage c1st "s1" "hi" [] none none
        (fun _ => "i") (fun _ => 0)).1.managed "s1").map ManagedSession.abortController =
      some (some false)) ∧
    ((sendMessageRequest c1st "s1" "hi" [] none none (fun _ => "i") (fun _ => 0)).2.events =
      [.error "s1" ("Session " ++ "s1" ++ " not found")]) ∧
    (SessionEvent.complete "s1" none ∉
      (sendMessageRequest c1st "s1" "hi" [] none none (fun _ => "i") (fun _ => 0)).2.events) := by
  refine ⟨?_, ?_, ?_, ?_, ?_⟩ <;> decide

/-- Concrete session record backing the C1 witness log. -/
def c1wsess : Session := { id := "s1", name := "S", createdAt := 0, updatedAt := 0 }

/-- Concrete relay state for the C1 witness: idle managed session with an
existing log. -/
def c1wst : RelayState := ⟨[("s1", c1m)], [("s1", [.sessionLine c1wsess])], []⟩

/-- Witness for the amended C1 theorem at a run whose stream raises after
yielding nothing: the flag, handle and buffer are cleared and the events
end with an error event then a completion event. -/
theorem handleSendMessage_teardown_witness :
    (alistLookup c1wst.managed "s1" = some c1m) ∧
    (c1m.isProcessing = false) ∧
    (alistLookup c1wst.store "s1" = some [.sessionLine c1wsess]) ∧
    ((∃ e2, (handleSendMessage c1wst "s1" "hi" [] (some "boom") none
        (fun _ => "i") (fun _ => 0)).2 = .finished e2) ∧
     (∃ mws, alistLookup (handleSendMessage c1wst "s1" "hi" [] (some "boom") none
          (fun _ => "i") (fun _ => 0)).1.managed "s1" = some mws ∧
        mws.isProcessing = false ∧ mws.abortController = none ∧ mws.streamingText = "") ∧
     (∀ e, (handleSendMessage c1wst "s1" "hi" [] (some "boom") none
          (fun _ => "i") (fun _ => 0)).2 = .finished (.failed e) →
        ∃ pre, (handleSendMessage c1wst "s1" "hi" [] (some "boom") none
          (fun _ => "i") (fun _ => 0)).1.events =
            pre ++ [.error "s1" e, .complete "s1" none])) :=
  ⟨rfl, rfl, rfl,
   handleSendMessage_teardown c1wst "s1" "hi" [] (some "boom") none
     (fun _ => "i") (fun _ => 0) c1m [.sessionLine c1wsess] rfl rfl rfl⟩

/-- C4 (amended): when the cancellation handle is signalled before any
agent event is consumed and at least one event is then received, the run
passes the guard, persists the user message, emits the user_message
event, and the first abort check fires: an interrupted event is pushed,
the loop stops, no assistant message is persisted (the log gains exactly
the user message), and the processing flag is false when the handler
completes. When the stream yields no event at all, no abort check runs,
so no interrupted event is pushed (cancellation is cooperative, checked
once per received event), though the other conclusions still hold. -/
theorem handleSendMessage_cancelled_before_events (st : RelayState) (sid msg : String)
    (ev : AgentEvent) (evs : List AgentEvent) (streamErr : Option String)
    (ids : Nat → String) (times : Nat → Nat) (m : ManagedSession)
    (s : Session) (rest : List LogLine)
    (hm : alistLookup st.managed sid = some m) (hp : m.isProcessing = false)
    (hf : alistLookup st.store sid = some (.sessionLine s :: rest)) :
    ((handleSendMessage st sid msg (ev :: evs) streamErr (some 0) ids times).2 =
      .finished .interrupted) ∧
    ((handleSendMessage st sid msg (ev :: evs) streamErr (some 0) ids times).1.events =
      st.events ++
        [.user_message sid { id := ids 0, role := .user, content := msg, timestamp := times 0 }
          "processing",
         .interrupted sid]) ∧
    (alistLookup (handleSendMessage st sid msg (ev :: evs) streamErr (some 0) ids times).1.store
        sid =
      some (.sessionLine (applyUpdates s { updatedAt := some (times 0) }) ::
        (rest ++ [.messageLine { id := ids 0, role := .user, content := msg,
                                 timestamp := times 0 }]))) ∧
    (∃ mws, alistLookup
        (handleSendMessage st sid msg (ev :: evs) streamErr (some 0) ids times).1.managed sid =
          some mws ∧
      mws.isProcessing = false) := by
  rw [handleSendMessage_processing_eq st sid msg (ev :: evs) streamErr (some 0) ids times m
    (.sessionLine s :: rest) hm hp hf]
  have hloop : ∀ rs : RunState,
      consumeStream sid ids times (some 0) 0 rs (ev :: evs) =
        (emit rs (.interrupted sid), .interrupted) := by
    intro rs
    simp [consumeStream, isAborted]
  simp only [hloop]
  refine ⟨rfl, ?_, ?_, ⟨_, alistLookup_write_self _ _ _, rfl⟩⟩
  · cases streamErr <;> simp [finalExit, emit]
  · cases streamErr <;>
      simp [finalExit, emit, updateSessionMetadata, alistLookup_write_self,
        alistWrite_write_self]

/-- Concrete idle state with an existing, empty session log (C4). -/
def c4st : RelayState := ⟨[("s1", c1m)], [("s1", [.sessionLine c1wsess])], []⟩

/-- Counterexample to C4 as stated: the cancellation handle is signalled
before any agent event is consumed, but the stream yields no event, so
the cooperative abort check never runs and no interrupted event is
pushed, contradicting the claim that one is emitted. -/
theorem handleSendMessage_cancel_no_event_cex :
    ((handleSendMessage c4st "s1" "hi" [] none (some 0) (fun _ => "i") (fun _ => 0)).1.events =
      [.user_message "s1" { id := "i", role := .user, content := "hi", timestamp := 0 }
        "processing"]) ∧
    (SessionEvent.interrupted "s1" ∉
      (handleSendMessage c4st "s1" "hi" [] none (some 0) (fun _ => "i") (fun _ => 0)).1.events) ∧
    ((handleSendMessage c4st "s1" "hi" [] none (some 0) (fun _ => "i") (fun _ => 0)).2 =
      .finished .exhausted) := by
  refine ⟨?_, ?_, ?_⟩ <;> decide

/-- Witness for the amended C4 theorem at a concrete cancelled run with
one pending agent event. -/
theorem handleSendMessage_cancelled_before_events_witness :
    (alistLookup c4st.managed "s1" = some c1m) ∧
    (c1m.isProcessing = false) ∧
    (alistLookup c4st.store "s1" = some (.sessionLine c1wsess :: [])) ∧
    (((handleSendMessage c4st "s1" "hi" [.complete none] none (some 0)
        (fun _ => "i") (fun _ => 0)).2 = .finished .interrupted) ∧
     ((handleSendMessage c4st "s1" "hi" [.complete none] none (some 0)
        (fun _ => "i") (fun _ => 0)).1.events =
       c4st.events ++
         [.user_message "s1" { id := "i", role := .user, content := "hi", timestamp := 0 }
           "processing",
          .interrupted "s1"]) ∧
     (alistLookup (handleSendMessage c4st "s1" "hi" [.complete none] none (some 0)
          (fun _ => "i") (fun _ => 0)).1.store "s1" =
       some (.sessionLine (applyUpdates c1wsess { updatedAt := some 0 }) ::
         ([] ++ [.messageLine { id := "i", role := .user, content := "hi", timestamp := 0 }]))) ∧
     (∃ mws, alistLookup (handleSendMessage c4st "s1" "hi" [.complete none] none (some 0)
          (fun _ => "i") (fun _ => 0)).1.managed "s1" = some mws ∧
        mws.isProcessing = false)) :=
  ⟨rfl, rfl, rfl,
   handleSendMessage_cancelled_before_events c4st "s1" "hi" (.complete none) [] none
     (fun _ => "i") (fun _ => 0) c1m c1wsess [] rfl rfl rfl⟩

/-! ## Claim C10: the SEND_MESSAGE response -/

/-- C10: the send-message request always responds with success and
started true, for every session identifier and message — the background
launch cannot fail synchronously; and when no persisted session and no
managed record exist for the identifier, the Not-Found failure of the
user-message persistence is reported solely as a pushed error event,
while the response is still the same success. -/
theorem sendMessageRequest_always_started (st : RelayState) (sid msg : String)
    (stream : List AgentEvent) (streamErr : Option String) (abortAt : Option Nat)
    (ids : Nat → String) (times : Nat → Nat) :
    ((sendMessageRequest st sid msg stream streamErr abortAt ids times).1 =
      { success := true, started := some true, error := none }) ∧
    (alistLookup st.managed sid = none → alistLookup st.store sid = none →
      (sendMessageRequest st sid msg stream streamErr abortAt ids times).2.events =
        st.events ++ [.error sid ("Session " ++ sid ++ " not found")]) := by
  constructor
  · rfl
  · intro h1 h2
    simp [sendMessageRequest, handleSendMessage, getOrCreateManagedSession, h1,
      loadSession, h2, appendMessage]

/-- Empty relay state for the C10 witness. -/
def c10st : RelayState := ⟨[], [], []⟩

/-- Witness for C10 at a concrete unknown session identifier: the
response is success with started true and the Not-Found failure appears
only as a pushed error event. -/
theorem sendMessageRequest_always_started_witness :
    (alistLookup c10st.managed "s1" = none) ∧
    (alistLookup c10st.store "s1" = none) ∧
    ((sendMessageRequest c10st "s1" "hi" [] none none (fun _ => "i") (fun _ => 0)).1 =
      { success := true, started := some true, error := none }) ∧
    ((sendMessageRequest c10st "s1" "hi" [] none none (fun _ => "i") (fun _ => 0)).2.events =
      c10st.events ++ [.error "s1" ("Session " ++ "s1" ++ " not found")]) :=
  ⟨rfl, rfl,
   (sendMessageRequest_always_started c10st "s1" "hi" [] none none
     (fun _ => "i") (fun _ => 0)).1,
   (sendMessageRequest_always_started c10st "s1" "hi" [] none none
     (fun _ => "i") (fun _ => 0)).2 rfl rfl⟩

end Deskhand
